import Mathlib

/-!
Verification of `cvxpy/problems/solvers/scs_mat_free_intf.py` (class
`SCS_MAT_FREE`), the matrix-free SCS solver interface.  The source file is
shallowly embedded below: Python dictionaries become association lists or
`String → Option _` maps, vectors become `List ℚ`, and the incremental
construction of the result dictionary in `format_results` is mirrored by
building a `List (String × ResultVal)` in the same order as the source.

Parts of the repository that the source file imports but that are not part
of the analysed source (`cvxpy.settings`, `cvxpy.problems.iterative`,
`cvxpy.lin_ops.tree_mat`) are modelled from the specification; each such
definition carries a doc comment starting with `Modelled from the spec:`.
-/

/-- Modelled from the spec: the canonical status enumeration of
`cvxpy.settings` (not in the analysed source): "status (enum: optimal,
infeasible, unbounded, solver-error, ...)" together with the inaccurate
("near-optimal") variants the solution-present set refers to. -/
inductive Status where
  | optimal
  | optimal_inaccurate
  | infeasible
  | infeasible_inaccurate
  | unbounded
  | unbounded_inaccurate
  | solver_error
deriving DecidableEq, Repr

/-- Modelled from the spec: the fixed solver-status-code → canonical-status
table `s.SOLVER_STATUS[s.SCS]` of `cvxpy.settings` (not in the analysed
source): "Status is looked up from a fixed solver-status-code →
canonical-status table"; `none` marks an unrecognized code. -/
def SOLVER_STATUS_SCS : String → Option Status
  | "Solved" => some Status.optimal
  | "Solved/Inaccurate" => some Status.optimal_inaccurate
  | "Infeasible" => some Status.infeasible
  | "Infeasible/Inaccurate" => some Status.infeasible_inaccurate
  | "Unbounded" => some Status.unbounded
  | "Unbounded/Inaccurate" => some Status.unbounded_inaccurate
  | "Failure" => some Status.solver_error
  | _ => none

/-- Modelled from the spec: `s.SOLUTION_PRESENT` of `cvxpy.settings` (not in
the analysed source): "If status indicates a solution is present (optimal or
near-optimal — not infeasible/unbounded/error)". -/
def SOLUTION_PRESENT : List Status := [Status.optimal, Status.optimal_inaccurate]

/-- Modelled from the spec: the result-dictionary key constants of
`cvxpy.settings` (not in the analysed source). -/
def STATUS : String := "status"

/-- Modelled from the spec: key constant `s.SOLVE_TIME`. -/
def SOLVE_TIME : String := "solve_time"

/-- Modelled from the spec: key constant `s.VALUE`. -/
def VALUE : String := "value"

/-- Modelled from the spec: key constant `s.PRIMAL`. -/
def PRIMAL : String := "primal"

/-- Modelled from the spec: key constant `s.EQ_DUAL`. -/
def EQ_DUAL : String := "eq_dual"

/-- Modelled from the spec: key constant `s.INEQ_DUAL`. -/
def INEQ_DUAL : String := "ineq_dual"

/-- The `info` sub-dictionary of the raw SCS output
(`results_dict["info"]`): status code string, timings, conjugate-gradient
iteration count and primal objective value. -/
structure SCSInfo where
  status : String
  solveTime : ℚ
  setupTime : ℚ
  cgIter : ℕ
  pobj : ℚ
deriving DecidableEq, Repr

/-- The raw solver output `results_dict`: the `info` record plus the primal
vector `x` and the dual vector `y`. -/
structure SCSOutput where
  info : SCSInfo
  x : List ℚ
  y : List ℚ
deriving DecidableEq, Repr

/-- The cone-dimension map `dims`; `format_results` reads only `dims["f"]`,
the number of equality (zero-cone) rows. -/
structure Dims where
  f : ℕ
deriving DecidableEq, Repr

/-- A value stored in the standard-form result dictionary. -/
inductive ResultVal where
  | status (st : Status)
  | rat (q : ℚ)
  | nat (n : ℕ)
  | vec (v : List ℚ)
deriving DecidableEq, Repr

/-- Raised when the external solver returned a status code that is not in
the fixed status table (a `KeyError` on `s.SOLVER_STATUS[s.SCS][...]`). -/
inductive FormatError where
  | unknownStatus (code : String)
deriving DecidableEq, Repr

/-- The three entries `format_results` stores unconditionally, in source
order: the translated status, `solve_time = solveTime + setupTime`, and the
conjugate-gradient iteration count under the literal key `'CG_ITERS'`. -/
def format_base (results_dict : SCSOutput) (status : Status) : List (String × ResultVal) :=
  [(STATUS, ResultVal.status status),
   (SOLVE_TIME, ResultVal.rat (results_dict.info.solveTime + results_dict.info.setupTime)),
   ("CG_ITERS", ResultVal.nat results_dict.info.cgIter)]

/-- The four entries `format_results` stores only when the translated status
is in `s.SOLUTION_PRESENT`, in source order: the offset-adjusted objective
value, the primal vector, and the dual vector split at `dims["f"]`
(`y[0:dims["f"]]` and `y[dims["f"]:]`, i.e. `take`/`drop`). -/
def format_sol_fields (results_dict : SCSOutput) (dims : Dims) (obj_offset : ℚ) :
    List (String × ResultVal) :=
  [(VALUE, ResultVal.rat (results_dict.info.pobj + obj_offset)),
   (PRIMAL, ResultVal.vec results_dict.x),
   (EQ_DUAL, ResultVal.vec (List.take dims.f results_dict.y)),
   (INEQ_DUAL, ResultVal.vec (List.drop dims.f results_dict.y))]

/-- Embedding of `SCS_MAT_FREE.format_results`.  The Python code builds
`new_results = {}` and inserts the `format_base` entries, then — only when
the translated status is in `s.SOLUTION_PRESENT` — the `format_sol_fields`
entries.  An unmapped status code raises (a `KeyError` on the status table),
modelled by `Except.error`. -/
def format_results (results_dict : SCSOutput) (dims : Dims) (obj_offset : ℚ) :
    Except FormatError (List (String × ResultVal)) :=
  match SOLVER_STATUS_SCS results_dict.info.status with
  | none => Except.error (FormatError.unknownStatus results_dict.info.status)
  | some status =>
    Except.ok (if status ∈ SOLUTION_PRESENT
      then format_base results_dict status ++ format_sol_fields results_dict dims obj_offset
      else format_base results_dict status)

/-- A raw output with status `"Solved"`, used to exercise the
solution-present branch of `format_results`. -/
def rawOptEx : SCSOutput :=
  { info := { status := "Solved", solveTime := 2, setupTime := 1, cgIter := 7, pobj := 5 },
    x := [1, 2], y := [10, 20, 30, 40] }

/-- The standard-form dictionary `format_results` produces for `rawOptEx`
with `dims.f = 3` and offset `0`. -/
def dOptEx : List (String × ResultVal) :=
  [(STATUS, ResultVal.status Status.optimal),
   (SOLVE_TIME, ResultVal.rat (2 + 1)),
   ("CG_ITERS", ResultVal.nat 7),
   (VALUE, ResultVal.rat (5 + 0)),
   (PRIMAL, ResultVal.vec [1, 2]),
   (EQ_DUAL, ResultVal.vec [10, 20, 30]),
   (INEQ_DUAL, ResultVal.vec [40])]

/-- A raw output with status `"Infeasible"`, used to exercise the
no-solution branch of `format_results`. -/
def rawInfEx : SCSOutput :=
  { info := { status := "Infeasible", solveTime := 2, setupTime := 1, cgIter := 4, pobj := 0 },
    x := [], y := [] }

/-- The standard-form dictionary `format_results` produces for `rawInfEx`. -/
def dInfEx : List (String × ResultVal) :=
  [(STATUS, ResultVal.status Status.infeasible),
   (SOLVE_TIME, ResultVal.rat (2 + 1)),
   ("CG_ITERS", ResultVal.nat 4)]

/-- A raw output with a status code absent from the status table. -/
def rawBadEx : SCSOutput :=
  { info := { status := "Bogus", solveTime := 0, setupTime := 0, cgIter := 0, pobj := 0 },
    x := [], y := [] }

/-- Modelled from the spec: a node of the canonicalized linear-operator
expression tree (`LinOpNode`, produced by the excluded symbolic layer):
"attributes: operation kind (sum, scalar-multiply, ..., variable-reference,
constant), operand sub-nodes, ... and an optional attached constant value".
Vectors are flattened to `List ℚ`; a variable node records its identifier
and its flattened length. -/
inductive LinOp where
  | const (v : List ℚ)
  | var (id : ℕ) (n : ℕ)
  | sum (a b : LinOp)
  | neg (a : LinOp)
  | smul (c : ℚ) (a : LinOp)
deriving DecidableEq, Repr

/-- Modelled from the spec: forward evaluation of a linear-operator tree
under a variable assignment (`tree_mat.mul`, not in the analysed source):
a variable absent from the assignment dictionary evaluates to the zero
vector, so the empty dictionary is the all-zero assignment. -/
def LinOp.eval (var_dict : ℕ → Option (List ℚ)) : LinOp → List ℚ
  | LinOp.const v => v
  | LinOp.var id n => (var_dict id).getD (List.replicate n 0)
  | LinOp.sum a b => List.zipWith (· + ·) (a.eval var_dict) (b.eval var_dict)
  | LinOp.neg a => (a.eval var_dict).map (fun q => -q)
  | LinOp.smul c a => (a.eval var_dict).map (fun q => c * q)

/-- The constant offset of a linear-operator tree: its value with every
variable replaced by the zero vector ("the stacked constant offsets ...
evaluated at zero"). -/
def LinOp.constOffset : LinOp → List ℚ
  | LinOp.const v => v
  | LinOp.var _ n => List.replicate n 0
  | LinOp.sum a b => List.zipWith (· + ·) a.constOffset b.constOffset
  | LinOp.neg a => a.constOffset.map (fun q => -q)
  | LinOp.smul c a => a.constOffset.map (fun q => c * q)

/-- A canonicalized constraint: its expression tree and its shape
`size = (rows, cols)`. -/
structure Constraint where
  expr : LinOp
  size : ℕ × ℕ
deriving DecidableEq, Repr

/-- Modelled from the spec: the forward constraint operator
`iterative.constr_mul` (not in the analysed source): it "evaluates every
... constraint node's linear action ... and concatenates results in
constraint order, producing the stacked residual". -/
def constr_mul (constraints : List Constraint) (var_dict : ℕ → Option (List ℚ)) : List ℚ :=
  (constraints.map (fun constr => constr.expr.eval var_dict)).flatten

/-- Modelled from the spec: the symbolic-data object, "exposing `constr_map`
(constraint-kind → list) and `x_length`"; the constraint map is kept as its
two lists, equality constraints and inequality constraints. -/
structure SymData where
  constr_map_eq : List Constraint
  constr_map_leq : List Constraint
  x_length : ℕ
deriving DecidableEq, Repr

/-- The concatenation `sym_data.constr_map[s.EQ] + sym_data.constr_map[s.LEQ]`
(`all_ineq` in `get_problem_data`): equality constraints followed by
inequality constraints. -/
def get_problem_data_all_ineq (sym_data : SymData) : List Constraint :=
  sym_data.constr_map_eq ++ sym_data.constr_map_leq

/-- The row count computed by `get_problem_data`:
`A_rows = sum(constr.size[0]*constr.size[1] for constr in all_ineq)`. -/
def get_problem_data_A_rows (sym_data : SymData) : ℕ :=
  ((get_problem_data_all_ineq sym_data).map
    (fun constr => constr.size.1 * constr.size.2)).sum

/-- The offset vector computed by `get_problem_data`:
`b = -iterative.constr_mul(all_ineq, {}, A_rows)` — the negation of the
forward constraint operator applied to the empty variable assignment. -/
def get_problem_data_b (sym_data : SymData) : List ℚ :=
  (constr_mul (get_problem_data_all_ineq sym_data) (fun _ => none)).map (fun q => -q)

/-- Embedding of `SCS_MAT_FREE.split_constr`: the body is literally
`return ([], [], [])`, ignoring its `constr_map` argument. -/
def split_constr (constr_map : List (String × List Constraint)) :
    List Constraint × List Constraint × List Constraint :=
  ([], [], [])

/-- A concrete symbolic-data object: one equality constraint with constant
expression `[2]` and one inequality constraint `x₀ + [3]`. -/
def symEx : SymData :=
  { constr_map_eq := [{ expr := LinOp.const [2], size := (1, 1) }],
    constr_map_leq := [{ expr := LinOp.sum (LinOp.var 0 1) (LinOp.const [3]), size := (1, 1) }],
    x_length := 1 }

/-- A heap of vector objects: Python vectors are mutable objects referenced
by identity, modelled as locations in a store. -/
abbrev Store := ℕ → List ℚ

/-- Overwrite the vector object held at location `loc` (an in-place
mutation such as `results_dict["x"][:] = ...`). -/
def store_write (st : Store) (loc : ℕ) (v : List ℚ) : Store :=
  fun l => if l = loc then v else st l

/-- Read the vector object held at a location. -/
def store_read (st : Store) (loc : ℕ) : List ℚ := st loc

/-- The raw solver output viewed by reference: the location of its primal
vector object `x`. -/
structure RawOutputRefs where
  x_ref : ℕ
deriving DecidableEq, Repr

/-- The result record viewed by reference: the location of the object
stored under `s.PRIMAL`. -/
structure ResultRecordRefs where
  primal_ref : ℕ
deriving DecidableEq, Repr

/-- Embedding, with Python reference semantics, of the line
`new_results[s.PRIMAL] = results_dict["x"]` in `format_results`:
dictionary assignment stores the same object reference — no copy is
made. -/
def format_results_primal (raw : RawOutputRefs) : ResultRecordRefs :=
  { primal_ref := raw.x_ref }

/-- A value of a solver option: the options set by `solve` are booleans and
integers. -/
inductive OptVal where
  | bool (b : Bool)
  | int (n : ℕ)
deriving DecidableEq, Repr

/-- A Python dictionary of solver options. -/
abbrev OptDict := String → Option OptVal

/-- Python dictionary assignment `d[key] = v`. -/
def dict_set (d : OptDict) (key : String) (v : OptVal) : OptDict :=
  fun k => if k = key then some v else d k

/-- Python `d.get(key, default)`. -/
def dict_get (d : OptDict) (key : String) (dflt : OptVal) : OptVal :=
  (d key).getD dflt

/-- Embedding of the option updates performed by `SCS_MAT_FREE.solve` on
`solver_opts`, in source order: `use_indirect` is forced to `True`,
`verbose` is set from the argument, and `equil_p`, `stoch`, `samples`,
`precond` keep a caller-supplied value or default to `2`, `False`, `25`,
`True`. -/
def solve_set_options (verbose : Bool) (solver_opts : OptDict) : OptDict :=
  let d1 := dict_set solver_opts "use_indirect" (OptVal.bool true)
  let d2 := dict_set d1 "verbose" (OptVal.bool verbose)
  let d3 := dict_set d2 "equil_p" (dict_get d2 "equil_p" (OptVal.int 2))
  let d4 := dict_set d3 "stoch" (dict_get d3 "stoch" (OptVal.bool false))
  let d5 := dict_set d4 "samples" (dict_get d4 "samples" (OptVal.int 25))
  dict_set d5 "precond" (dict_get d5 "precond" (OptVal.bool true))

/-- A heap of option-dictionary objects: the caller's `solver_opts` is a
mutable object referenced by identity. -/
abbrev OptStore := ℕ → OptDict

/-- Overwrite the dictionary object held at a location. -/
def opt_store_write (st : OptStore) (loc : ℕ) (d : OptDict) : OptStore :=
  fun l => if l = loc then d else st l

/-- The effect of `SCS_MAT_FREE.solve` on the caller's `solver_opts`
object: the six assignments mutate the dictionary at `opts_ref` in place,
and the mutated dictionary is exactly what `**solver_opts` sends to
`mat_free_scs.solve`.  Returns the post-call heap and the options sent. -/
def solve_opts_effect (verbose : Bool) (st : OptStore) (opts_ref : ℕ) :
    OptStore × OptDict :=
  let sent := solve_set_options verbose (st opts_ref)
  (opt_store_write st opts_ref sent, sent)

lemma format_results_none (r : SCSOutput) (dims : Dims) (o : ℚ)
    (h : SOLVER_STATUS_SCS r.info.status = none) :
    format_results r dims o = Except.error (FormatError.unknownStatus r.info.status) := by
  unfold format_results
  rw [h]

lemma format_results_some (r : SCSOutput) (dims : Dims) (o : ℚ) (st : Status)
    (h : SOLVER_STATUS_SCS r.info.status = some st) :
    format_results r dims o =
      Except.ok (if st ∈ SOLUTION_PRESENT
        then format_base r st ++ format_sol_fields r dims o
        else format_base r st) := by
  unfold format_results
  rw [h]

lemma lookup_full_status (r : SCSOutput) (dims : Dims) (o : ℚ) (st : Status) :
    (format_base r st ++ format_sol_fields r dims o).lookup STATUS =
      some (ResultVal.status st) := rfl

lemma lookup_base_status (r : SCSOutput) (st : Status) :
    (format_base r st).lookup STATUS = some (ResultVal.status st) := rfl

/-- From an `Except.ok` result of `format_results`, recover the canonical
status the dictionary was built from. -/
lemma format_results_status_inv (r : SCSOutput) (dims : Dims) (o : ℚ)
    (d : List (String × ResultVal)) (st st2 : Status)
    (htab : SOLVER_STATUS_SCS r.info.status = some st2)
    (hok : format_results r dims o = Except.ok d)
    (hst : d.lookup STATUS = some (ResultVal.status st)) : st2 = st := by
  rw [format_results_some r dims o st2 htab] at hok
  simp only [Except.ok.injEq] at hok
  subst hok
  by_cases hsp2 : st2 ∈ SOLUTION_PRESENT
  · rw [if_pos hsp2, lookup_full_status] at hst
    simpa using hst
  · rw [if_neg hsp2, lookup_base_status] at hst
    simpa using hst

/-- C2: whenever the translated status indicates a solution is present, the
raw dual vector `y` is split exactly at index `dims["f"]`: the equality-dual
vector is `y[0:dims["f"]]` and the inequality-dual vector is
`y[dims["f"]:]`, and the two parts concatenate back to all of `y` (no
overlap, full coverage). -/
theorem format_results_dual_split (r : SCSOutput) (dims : Dims) (o : ℚ)
    (d : List (String × ResultVal)) (st : Status)
    (hok : format_results r dims o = Except.ok d)
    (hst : d.lookup STATUS = some (ResultVal.status st))
    (hsp : st ∈ SOLUTION_PRESENT) :
    d.lookup EQ_DUAL = some (ResultVal.vec (List.take dims.f r.y)) ∧
    d.lookup INEQ_DUAL = some (ResultVal.vec (List.drop dims.f r.y)) ∧
    List.take dims.f r.y ++ List.drop dims.f r.y = r.y := by
  cases htab : SOLVER_STATUS_SCS r.info.status with
  | none =>
    rw [format_results_none r dims o htab] at hok
    exact absurd hok (by simp)
  | some st2 =>
    have hst2 : st2 = st := format_results_status_inv r dims o d st st2 htab hok hst
    subst hst2
    rw [format_results_some r dims o st2 htab] at hok
    simp only [Except.ok.injEq] at hok
    subst hok
    rw [if_pos hsp]
    exact ⟨rfl, rfl, List.take_append_drop _ _⟩

/-- C2 witness: the dual split evaluated on the concrete solved output
`rawOptEx` with `dims.f = 3`. -/
theorem format_results_dual_split_witness :
    dOptEx.lookup EQ_DUAL = some (ResultVal.vec (List.take 3 rawOptEx.y)) ∧
    dOptEx.lookup INEQ_DUAL = some (ResultVal.vec (List.drop 3 rawOptEx.y)) ∧
    List.take 3 rawOptEx.y ++ List.drop 3 rawOptEx.y = rawOptEx.y :=
  format_results_dual_split rawOptEx { f := 3 } 0 dOptEx Status.optimal rfl rfl (by decide)

/-- C3: every successfully translated result dictionary has the status,
solve-time and `'CG_ITERS'` fields, and when the translated status is not in
the solution-present set it has no value, primal, equality-dual or
inequality-dual field. -/
theorem format_results_status_gating (r : SCSOutput) (dims : Dims) (o : ℚ)
    (d : List (String × ResultVal))
    (hok : format_results r dims o = Except.ok d) :
    (d.lookup STATUS).isSome = true ∧
    (d.lookup SOLVE_TIME).isSome = true ∧
    (d.lookup "CG_ITERS").isSome = true ∧
    (∀ st, d.lookup STATUS = some (ResultVal.status st) → st ∉ SOLUTION_PRESENT →
      d.lookup VALUE = none ∧ d.lookup PRIMAL = none ∧
      d.lookup EQ_DUAL = none ∧ d.lookup INEQ_DUAL = none) := by
  cases htab : SOLVER_STATUS_SCS r.info.status with
  | none =>
    rw [format_results_none r dims o htab] at hok
    exact absurd hok (by simp)
  | some st2 =>
    have hok2 := hok
    rw [format_results_some r dims o st2 htab] at hok2
    simp only [Except.ok.injEq] at hok2
    subst hok2
    by_cases hsp2 : st2 ∈ SOLUTION_PRESENT
    · rw [if_pos hsp2]
      refine ⟨rfl, rfl, rfl, fun st hst hnot => ?_⟩
      rw [lookup_full_status] at hst
      have hst2 : st2 = st := by simpa using hst
      subst hst2
      exact absurd hsp2 hnot
    · rw [if_neg hsp2]
      exact ⟨rfl, rfl, rfl, fun st hst hnot => ⟨rfl, rfl, rfl, rfl⟩⟩

/-- C3 witness: the status gating evaluated on the concrete infeasible
output `rawInfEx`. -/
theorem format_results_status_gating_witness :
    (dInfEx.lookup STATUS).isSome = true ∧
    (dInfEx.lookup SOLVE_TIME).isSome = true ∧
    (dInfEx.lookup "CG_ITERS").isSome = true ∧
    (dInfEx.lookup VALUE = none ∧ dInfEx.lookup PRIMAL = none ∧
      dInfEx.lookup EQ_DUAL = none ∧ dInfEx.lookup INEQ_DUAL = none) := by
  have h := format_results_status_gating rawInfEx { f := 0 } 0 dInfEx rfl
  exact ⟨h.1, h.2.1, h.2.2.1, h.2.2.2 Status.infeasible rfl (by decide)⟩

/-- C4: whenever the translated status indicates a solution is present, the
reported objective value is the raw `pobj` plus the objective offset. -/
theorem format_results_value_offset (r : SCSOutput) (dims : Dims) (o : ℚ)
    (d : List (String × ResultVal)) (st : Status)
    (hok : format_results r dims o = Except.ok d)
    (hst : d.lookup STATUS = some (ResultVal.status st))
    (hsp : st ∈ SOLUTION_PRESENT) :
    d.lookup VALUE = some (ResultVal.rat (r.info.pobj + o)) := by
  cases htab : SOLVER_STATUS_SCS r.info.status with
  | none =>
    rw [format_results_none r dims o htab] at hok
    exact absurd hok (by simp)
  | some st2 =>
    have hst2 : st2 = st := format_results_status_inv r dims o d st st2 htab hok hst
    subst hst2
    rw [format_results_some r dims o st2 htab] at hok
    simp only [Except.ok.injEq] at hok
    subst hok
    rw [if_pos hsp]
    rfl

/-- C4 witness: the objective value on the concrete solved output
`rawOptEx` with offset `0`. -/
theorem format_results_value_offset_witness :
    dOptEx.lookup VALUE = some (ResultVal.rat (rawOptEx.info.pobj + 0)) :=
  format_results_value_offset rawOptEx { f := 3 } 0 dOptEx Status.optimal rfl rfl (by decide)

/-- C5: `format_results` maps the raw status code through the fixed status
table; an unmapped code yields `UnknownStatusError` instead of a result
dictionary, and a mapped code yields a dictionary whose status field is the
table's translation. -/
theorem format_results_status_table (r : SCSOutput) (dims : Dims) (o : ℚ) :
    (SOLVER_STATUS_SCS r.info.status = none →
      format_results r dims o = Except.error (FormatError.unknownStatus r.info.status)) ∧
    (∀ st, SOLVER_STATUS_SCS r.info.status = some st →
      ∃ d, format_results r dims o = Except.ok d ∧
        d.lookup STATUS = some (ResultVal.status st)) := by
  constructor
  · exact format_results_none r dims o
  · intro st htab
    refine ⟨_, format_results_some r dims o st htab, ?_⟩
    by_cases hsp : st ∈ SOLUTION_PRESENT
    · rw [if_pos hsp]
      exact lookup_full_status r dims o st
    · rw [if_neg hsp]
      exact lookup_base_status r st

/-- C5 witness: the unrecognized code `"Bogus"` fails with
`UnknownStatusError`, and the recognized code `"Solved"` yields a
dictionary whose status field is `optimal`. -/
theorem format_results_status_table_witness :
    format_results rawBadEx { f := 0 } 0 =
      Except.error (FormatError.unknownStatus rawBadEx.info.status) ∧
    ∃ d, format_results rawOptEx { f := 3 } 0 = Except.ok d ∧
      d.lookup STATUS = some (ResultVal.status Status.optimal) :=
  ⟨(format_results_status_table rawBadEx { f := 0 } 0).1 rfl,
   (format_results_status_table rawOptEx { f := 3 } 0).2 Status.optimal rfl⟩

/-- C7: every successfully translated result dictionary reports
`solve_time` as the raw `solveTime` plus `setupTime`, regardless of
status. -/
theorem format_results_solve_time (r : SCSOutput) (dims : Dims) (o : ℚ)
    (d : List (String × ResultVal))
    (hok : format_results r dims o = Except.ok d) :
    d.lookup SOLVE_TIME =
      some (ResultVal.rat (r.info.solveTime + r.info.setupTime)) := by
  cases htab : SOLVER_STATUS_SCS r.info.status with
  | none =>
    rw [format_results_none r dims o htab] at hok
    exact absurd hok (by simp)
  | some st2 =>
    rw [format_results_some r dims o st2 htab] at hok
    simp only [Except.ok.injEq] at hok
    subst hok
    by_cases hsp2 : st2 ∈ SOLUTION_PRESENT
    · rw [if_pos hsp2]
      rfl
    · rw [if_neg hsp2]
      rfl

/-- C7 witness: the solve time on the concrete infeasible output
`rawInfEx`. -/
theorem format_results_solve_time_witness :
    dInfEx.lookup SOLVE_TIME =
      some (ResultVal.rat (rawInfEx.info.solveTime + rawInfEx.info.setupTime)) :=
  format_results_solve_time rawInfEx { f := 0 } 0 dInfEx rfl

/-- Evaluating a linear-operator tree under the empty variable dictionary
(Python `{}`) gives exactly its constant offset: a missing variable reads as
the zero vector. -/
lemma LinOp.eval_empty (e : LinOp) : e.eval (fun _ => none) = e.constOffset := by
  induction e with
  | const v => rfl
  | var id n => rfl
  | sum a b iha ihb => simp [LinOp.eval, LinOp.constOffset, iha, ihb]
  | neg a iha => simp [LinOp.eval, LinOp.constOffset, iha]
  | smul c a iha => simp [LinOp.eval, LinOp.constOffset, iha]

/-- C1: the offset vector `b` of `get_problem_data` is the negation of the
forward constraint operator at the empty/zero assignment over the equality
constraints followed by the inequality constraints; it equals minus the
stacked constant offsets of those constraints evaluated at zero, and when
every constraint's flattened expression matches its declared shape, `b` has
exactly `A_rows = sum(size[0]*size[1])` entries. -/
theorem get_problem_data_b_spec (sym_data : SymData)
    (h : ∀ constr ∈ get_problem_data_all_ineq sym_data,
      constr.expr.constOffset.length = constr.size.1 * constr.size.2) :
    get_problem_data_b sym_data =
      (((get_problem_data_all_ineq sym_data).map
        (fun constr => constr.expr.constOffset)).flatten).map (fun q => -q) ∧
    (get_problem_data_b sym_data).length = get_problem_data_A_rows sym_data := by
  have hmap : (get_problem_data_all_ineq sym_data).map
      (fun constr => constr.expr.eval (fun _ => none)) =
      (get_problem_data_all_ineq sym_data).map
      (fun constr => constr.expr.constOffset) :=
    List.map_congr_left (fun constr _ => constr.expr.eval_empty)
  constructor
  · unfold get_problem_data_b constr_mul
    rw [hmap]
  · unfold get_problem_data_b constr_mul get_problem_data_A_rows
    rw [hmap, List.length_map, List.length_flatten, List.map_map]
    exact congrArg List.sum (List.map_congr_left (fun constr hc => h constr hc))

/-- C1 witness: the offset vector on the concrete problem `symEx` (one
equality constraint `[2]` and one inequality constraint `x₀ + [3]`). -/
theorem get_problem_data_b_spec_witness :
    (∀ constr ∈ get_problem_data_all_ineq symEx,
      constr.expr.constOffset.length = constr.size.1 * constr.size.2) ∧
    (get_problem_data_b symEx =
      (((get_problem_data_all_ineq symEx).map
        (fun constr => constr.expr.constOffset)).flatten).map (fun q => -q) ∧
    (get_problem_data_b symEx).length = get_problem_data_A_rows symEx) :=
  ⟨by decide, get_problem_data_b_spec symEx (by decide)⟩

/-- C10: `split_constr` returns three empty lists for every constraint map:
this interface never partitions constraints via `split_constr`. -/
theorem split_constr_empty (constr_map : List (String × List Constraint)) :
    split_constr constr_map = ([], [], []) := rfl

/-- C6 counterexample: the primal field is not a copy.  With the raw `x` at
location `0` holding `[0]`, mutating it to `[1]` after translation changes
what the result record's primal field reads. -/
theorem format_results_primal_copy_cex :
    ¬ (store_read (store_write (fun _ => [0]) (RawOutputRefs.mk 0).x_ref [1])
        (format_results_primal (RawOutputRefs.mk 0)).primal_ref =
       store_read (fun _ => [0]) (format_results_primal (RawOutputRefs.mk 0)).primal_ref) := by
  simp [store_read, store_write, format_results_primal]

/-- C6 amended: the primal field stored by `format_results` is the same
object as the raw output's `x` (a reference, not a copy): after mutating
the raw `x` to any value `v`, the result record's primal field reads
`v`. -/
theorem format_results_primal_alias (st : Store) (raw : RawOutputRefs) (v : List ℚ) :
    store_read (store_write st raw.x_ref v) (format_results_primal raw).primal_ref = v := by
  simp [store_read, store_write, format_results_primal]

/-- The six option entries after `solve`'s updates: `use_indirect` is
`True` regardless of the caller's value, `verbose` is the argument, and the
four defaulted keys hold the caller's value when supplied and the default
otherwise. -/
lemma solve_set_options_spec (verbose : Bool) (solver_opts : OptDict) :
    solve_set_options verbose solver_opts "use_indirect" = some (OptVal.bool true) ∧
    solve_set_options verbose solver_opts "verbose" = some (OptVal.bool verbose) ∧
    solve_set_options verbose solver_opts "equil_p" =
      some ((solver_opts "equil_p").getD (OptVal.int 2)) ∧
    solve_set_options verbose solver_opts "stoch" =
      some ((solver_opts "stoch").getD (OptVal.bool false)) ∧
    solve_set_options verbose solver_opts "samples" =
      some ((solver_opts "samples").getD (OptVal.int 25)) ∧
    solve_set_options verbose solver_opts "precond" =
      some ((solver_opts "precond").getD (OptVal.bool true)) := by
  refine ⟨?_, ?_, ?_, ?_, ?_, ?_⟩ <;> simp [solve_set_options, dict_set, dict_get]

/-- C8: the options passed to the external solver have `use_indirect`
forced to `True` (overriding any caller value), `verbose` set from the
argument, and `equil_p`, `stoch`, `samples`, `precond` equal to the
caller-supplied value when present and to `2`, `False`, `25`, `True`
otherwise. -/
theorem solve_options_forced_and_defaults (verbose : Bool) (solver_opts : OptDict) :
    solve_set_options verbose solver_opts "use_indirect" = some (OptVal.bool true) ∧
    solve_set_options verbose solver_opts "verbose" = some (OptVal.bool verbose) ∧
    solve_set_options verbose solver_opts "equil_p" =
      some ((solver_opts "equil_p").getD (OptVal.int 2)) ∧
    solve_set_options verbose solver_opts "stoch" =
      some ((solver_opts "stoch").getD (OptVal.bool false)) ∧
    solve_set_options verbose solver_opts "samples" =
      some ((solver_opts "samples").getD (OptVal.int 25)) ∧
    solve_set_options verbose solver_opts "precond" =
      some ((solver_opts "precond").getD (OptVal.bool true)) :=
  solve_set_options_spec verbose solver_opts

/-- C9: `solve` mutates the caller's `solver_opts` object in place: after
the call, the dictionary at the caller's reference is exactly the options
dictionary sent to the external solver, and it contains the six keys
`use_indirect`, `verbose`, `equil_p`, `stoch`, `samples`, `precond` with
the values sent. -/
theorem solve_mutates_solver_opts (verbose : Bool) (st : OptStore) (opts_ref : ℕ) :
    (solve_opts_effect verbose st opts_ref).1 opts_ref =
      (solve_opts_effect verbose st opts_ref).2 ∧
    (solve_opts_effect verbose st opts_ref).1 opts_ref "use_indirect" =
      some (OptVal.bool true) ∧
    (solve_opts_effect verbose st opts_ref).1 opts_ref "verbose" =
      some (OptVal.bool verbose) ∧
    (solve_opts_effect verbose st opts_ref).1 opts_ref "equil_p" =
      some ((st opts_ref "equil_p").getD (OptVal.int 2)) ∧
    (solve_opts_effect verbose st opts_ref).1 opts_ref "stoch" =
      some ((st opts_ref "stoch").getD (OptVal.bool false)) ∧
    (solve_opts_effect verbose st opts_ref).1 opts_ref "samples" =
      some ((st opts_ref "samples").getD (OptVal.int 25)) ∧
    (solve_opts_effect verbose st opts_ref).1 opts_ref "precond" =
      some ((st opts_ref "precond").getD (OptVal.bool true)) := by
  have hloc : (solve_opts_effect verbose st opts_ref).1 opts_ref =
      solve_set_options verbose (st opts_ref) := by
    simp [solve_opts_effect, opt_store_write]
  have h := solve_set_options_spec verbose (st opts_ref)
  exact ⟨by simp [solve_opts_effect, opt_store_write],
    by rw [hloc]; exact h.1,
    by rw [hloc]; exact h.2.1,
    by rw [hloc]; exact h.2.2.1,
    by rw [hloc]; exact h.2.2.2.1,
    by rw [hloc]; exact h.2.2.2.2.1,
    by rw [hloc]; exact h.2.2.2.2.2⟩
